import Mathlib

/-!
# Verification of the GraphQL query builder

A shallow embedding of the query-builder module (`builder.go`) of the
go-graphql-client repository, together with theorems settling the frozen
claims about its specification.

The source file contains two concatenated variants of the same component:
a first variant named QueryBuilder (methods Query, Variable, Variables,
Remove, RemoveQuery, RemoveVariable, Build) and a second variant named
Builder that adds a context field and renames Query to Bind and Remove to
Unbind; the bodies of the shared operations are identical character for
character. The embedding below models that shared body once, under the
first variant's names.

Modelling conventions:
* Go map[string]interface{} values are modelled as association lists
  `List (String × V)` with distinct keys (every map the program ever
  constructs is built from the empty map by overwrite-or-add insertion,
  which keeps keys distinct, so list length is the Go map length).
  Go map iteration order is unspecified; the model fixes insertion order,
  and every statement about maps that could depend on order is phrased
  through lookups (`mapGet`) or key lists.
* Bindings (Go interface{}) are an opaque type parameter `B`; variable
  values are an opaque type parameter `V`.
* The regular expression scan of the Go code
  (regexVariableName = \$([_A-Za-z][_0-9A-Za-z]*), applied with
  FindAllStringSubmatch) is modelled by the character scanner `scanVars`:
  leftmost match, greedy (maximal) name run, scanning resuming after each
  match, exactly the behaviour of the Go regexp engine on this pattern.
* The value-level model treats each builder as a value.  Go's reference
  semantics for the shared variables map (which `setMapValue` writes
  through) is modelled separately by a store-passing model (`HQueryBuilder`,
  `Store`) used for the aliasing claim.
-/

namespace Graphql

/-! ## Character classes of the variable-name pattern

Go pattern: `\$([_A-Za-z][_0-9A-Za-z]*)`.  `Char.isAlpha` and
`Char.isDigit` are the ASCII classes A-Z, a-z and 0-9. -/

def isVarStart (c : Char) : Bool := c == '_' || c.isAlpha

def isVarCont (c : Char) : Bool := c == '_' || c.isAlpha || c.isDigit

/-! ## The scanner modelling regexVariableName.FindAllStringSubmatch

`scanVars` returns the captured groups (the names, without the dollar
sign) of all matches, left to right. -/

def scanVars : List Char → List (List Char)
  | [] => []
  | c :: rest =>
    if c == '$' then
      match rest with
      | [] => []
      | c2 :: rest2 =>
        if isVarStart c2 then
          (c2 :: rest2.takeWhile isVarCont) :: scanVars (rest2.dropWhile isVarCont)
        else
          scanVars (c2 :: rest2)
    else
      scanVars rest
termination_by l => l.length
decreasing_by
  · simp only [List.length_cons]
    have h := List.Sublist.length_le (List.dropWhile_sublist (p := isVarCont) (l := rest2))
    omega
  · simp [List.length_cons]
  · simp [List.length_cons]

/-- findAllVariableNames of builder.go: the list of variable names that the
regular expression scan extracts from a query fragment, in order of
appearance, duplicates preserved. -/
def findAllVariableNames (query : String) : List String :=
  (scanVars query.data).map (fun cs => String.mk cs)

/-! ## The variables map (Go map[string]interface{}) -/

/-- Association-list model of the Go variables map. -/
abbrev VarMap (V : Type) := List (String × V)

/-- Lookup `m[k]` of a Go map. -/
def mapGet : VarMap V → String → Option V
  | [], _ => none
  | p :: t, k => if p.1 == k then some p.2 else mapGet t k

/-- The `_, ok := m[k]` test of a Go map. -/
def mapContains (m : VarMap V) (k : String) : Bool :=
  (mapGet m k).isSome

/-- setMapValue of builder.go: Go map assignment `src[key] = value`,
overwrite if the key is present, add otherwise.  (The Go function also
allocates when handed a nil map; the list model has no nil/empty
distinction.) -/
def setMapValue : VarMap V → String → V → VarMap V
  | [], k, v => [(k, v)]
  | p :: t, k, v => if p.1 == k then (k, v) :: t else p :: setMapValue t k v

/-- mergeMap of builder.go: a fresh map holding all entries of src
overridden by all entries of dest. -/
def mergeMap (src dest : VarMap V) : VarMap V :=
  dest.foldl (fun acc p => setMapValue acc p.1 p.2)
    (src.foldl (fun acc p => setMapValue acc p.1 p.2) [])

/-- sliceStringContains of builder.go. -/
def sliceStringContains (slice : List String) (val : String) : Bool :=
  slice.any (fun s => s == val)

/-! ## The builder state -/

/-- queryBuilderItem of builder.go. -/
structure QueryBuilderItem (B : Type) where
  query : String
  binding : B
  requiredVars : List String
deriving DecidableEq

/-- QueryBuilder of builder.go (the Builder variant carries an extra
context field that none of the shared operations reads). -/
structure QueryBuilder (B V : Type) where
  queries : List (QueryBuilderItem B)
  vars : VarMap V
deriving DecidableEq

/-- NewQueryBuilder of builder.go. -/
def NewQueryBuilder : QueryBuilder B V := ⟨[], []⟩

/-- Query of builder.go (identical to Bind of the Builder variant):
appends a fragment whose requiredVars are computed from the text at
insertion time. -/
def QueryBuilder.Query (b : QueryBuilder B V) (query : String) (binding : B) :
    QueryBuilder B V :=
  { queries := b.queries ++ [⟨query, binding, findAllVariableNames query⟩]
    vars := b.vars }

/-- Variable of builder.go. -/
def QueryBuilder.Variable (b : QueryBuilder B V) (key : String) (value : V) :
    QueryBuilder B V :=
  { queries := b.queries
    vars := setMapValue b.vars key value }

/-- Variables of builder.go. -/
def QueryBuilder.Variables (b : QueryBuilder B V) (vars : VarMap V) :
    QueryBuilder B V :=
  { queries := b.queries
    vars := mergeMap b.vars vars }

/-- The per-survivor variable transfer inside Remove of builder.go: for
each required name of a kept fragment, if the original map has it, insert
it into the map being built. -/
def insertFound (bvars : VarMap V) (m : VarMap V) (ks : List String) : VarMap V :=
  ks.foldl (fun m2 k =>
    match mapGet bvars k with
    | some v => setMapValue m2 k v
    | none => m2) m

/-- Remove of builder.go (identical to Unbind of the Builder variant).
The single Go loop both collects the fragments whose text matches none of
the arguments (append-if over the original order) and rebuilds the
variables map from the survivors' required names; it is rendered here as
the same append-if fold followed by the same insertion fold over the
survivors, in the same order. -/
def QueryBuilder.Remove (b : QueryBuilder B V) (query : String) (extra : List String) :
    QueryBuilder B V :=
  let newQueries := b.queries.foldl
    (fun acc q =>
      if q.query == query || sliceStringContains extra q.query then acc
      else acc ++ [q]) []
  let newVars := newQueries.foldl
    (fun m q =>
      if 0 < b.vars.length then insertFound b.vars m q.requiredVars
      else m) []
  ⟨newQueries, newVars⟩

/-- RemoveQuery of builder.go: drops matching fragments, keeps the
variables map of the receiver. -/
def QueryBuilder.RemoveQuery (b : QueryBuilder B V) (query : String) (extra : List String) :
    QueryBuilder B V :=
  { queries := b.queries.foldl
      (fun acc q =>
        if q.query != query && !sliceStringContains extra q.query then acc ++ [q]
        else acc) []
    vars := b.vars }

/-- RemoveVariable of builder.go: rebuilds the variables map keeping the
entries whose key matches none of the arguments; fragments untouched. -/
def QueryBuilder.RemoveVariable (b : QueryBuilder B V) (key : String) (extra : List String) :
    QueryBuilder B V :=
  { queries := b.queries
    vars := b.vars.foldl
      (fun acc p =>
        if p.1 != key && !sliceStringContains extra p.1 then acc ++ [p]
        else acc) [] }

/-! ## Build -/

/-- The outcome of Build: Go returns ([]QueryBinding, map, error) where
exactly one of the error and the payload is meaningful. -/
inductive BuildResult (B V : Type) where
  /-- errBuildQueryRequired: "no graphql query to be built". -/
  | noQueryError
  /-- the fmt.Errorf "mismatched variables; want: ...; got: ..." error,
  carrying the required-name list and the declared-key list. -/
  | mismatchedVariablesError (required : List String) (declared : List String)
  /-- the success payload: the (text, binding) pairs and the variables map. -/
  | ok (queries : List (String × B)) (vars : VarMap V)
deriving DecidableEq

/-- The required-variable accumulation loop of Build:
requiredVars = append(requiredVars, q.requiredVars...) over all fragments. -/
def requiredVarsOf (qs : List (QueryBuilderItem B)) : List String :=
  qs.foldl (fun acc q => acc ++ q.requiredVars) []

/-- The mismatch decision of Build: count inequality, or — when the counts
agree and some variable is required — a required name missing from the
map.  (Go computes isMismatchedVariables := lenV != lenR and only runs the
membership loop when that is false and lenR > 0; the short-circuiting
boolean below is the same function.) -/
def buildMismatch (b : QueryBuilder B V) : Bool :=
  (b.vars.length != (requiredVarsOf b.queries).length) ||
    (decide (0 < (requiredVarsOf b.queries).length) &&
      (requiredVarsOf b.queries).any (fun n => !(mapContains b.vars n)))

/-- Build of builder.go. -/
def QueryBuilder.Build (b : QueryBuilder B V) : BuildResult B V :=
  if b.queries.length == 0 then
    .noQueryError
  else if buildMismatch b then
    .mismatchedVariablesError (requiredVarsOf b.queries) (b.vars.map Prod.fst)
  else
    .ok (b.queries.map (fun q => (q.query, q.binding))) b.vars

/-! ## Spec-side description of the variable scan

The specification describes requiredVariables as "the sequence of names of
all tokens in the text matching $name where name starts with a letter or
underscore and continues with letters, digits, or underscores, listed in
order of appearance, duplicates preserved".  `specRequiredVariables`
renders that description directly: at every position of the text, a token
is a dollar sign followed by a maximal nonempty run of name characters
whose first character may start a name; the tokens are listed by position. -/

/-- The name token beginning at position i of the text, if any. -/
def tokenAt (s : List Char) (i : Nat) : Option (List Char) :=
  match s.drop i with
  | '$' :: c :: rest =>
    if isVarStart c then some (c :: rest.takeWhile isVarCont) else none
  | _ => none

/-- All name tokens of the text, by position of appearance. -/
def specVarTokens (s : List Char) : List (List Char) :=
  (List.range s.length).filterMap (tokenAt s)

/-- Modelled from the spec: the required-variable list of a fragment text,
as the spec describes it (all $name tokens in order of appearance,
duplicates preserved). -/
def specRequiredVariables (query : String) : List String :=
  (specVarTokens query.data).map (fun cs => String.mk cs)

theorem isVarCont_of_isVarStart {c : Char} (h : isVarStart c = true) :
    isVarCont c = true := by
  simp only [isVarStart, Bool.or_eq_true] at h
  simp only [isVarCont, Bool.or_eq_true]
  tauto

theorem not_isVarCont_dollar : isVarCont '$' = false := by decide

theorem tokenAt_succ_cons (c : Char) (s : List Char) (i : Nat) :
    tokenAt (c :: s) (i + 1) = tokenAt s i := by
  simp [tokenAt, List.drop_succ_cons]

theorem tokenAt_cons_zero_of_ne (c : Char) (s : List Char) (h : ¬ c = '$') :
    tokenAt (c :: s) 0 = none := by
  unfold tokenAt
  simp only [List.drop_zero]
  split
  · rename_i heq
    cases heq
    exact absurd rfl h
  · rfl

theorem scanVars_nil : scanVars [] = [] := by
  rw [scanVars.eq_def]

theorem scanVars_cons_ne (c : Char) (s : List Char) (h : ¬ c = '$') :
    scanVars (c :: s) = scanVars s := by
  rw [scanVars.eq_def]
  simp [h]

theorem scanVars_dollar_nil : scanVars ['$'] = [] := by
  rw [scanVars.eq_def]
  simp

theorem scanVars_dollar_start (c2 : Char) (rest2 : List Char)
    (h : isVarStart c2 = true) :
    scanVars ('$' :: c2 :: rest2) =
      (c2 :: rest2.takeWhile isVarCont) :: scanVars (rest2.dropWhile isVarCont) := by
  rw [scanVars.eq_def]
  simp [h]

theorem scanVars_dollar_not_start (c2 : Char) (rest2 : List Char)
    (h : ¬ isVarStart c2 = true) :
    scanVars ('$' :: c2 :: rest2) = scanVars (c2 :: rest2) := by
  rw [scanVars.eq_def]
  simp [h]

theorem specVarTokens_cons (c : Char) (s : List Char) :
    specVarTokens (c :: s) =
      (match tokenAt (c :: s) 0 with
        | some t => t :: specVarTokens s
        | none => specVarTokens s) := by
  unfold specVarTokens
  rw [List.length_cons, List.range_succ_eq_map, List.filterMap_cons, List.filterMap_map]
  have h3 : (tokenAt (c :: s)) ∘ Nat.succ = tokenAt s := by
    funext i
    exact tokenAt_succ_cons c s i
  rw [h3]
  cases tokenAt (c :: s) 0 <;> rfl

theorem specVarTokens_cons_of_cont (c : Char) (s : List Char)
    (h : isVarCont c = true) : specVarTokens (c :: s) = specVarTokens s := by
  have hne : ¬ c = '$' := by
    intro he
    rw [he, not_isVarCont_dollar] at h
    cases h
  rw [specVarTokens_cons, tokenAt_cons_zero_of_ne c s hne]

theorem specVarTokens_dropWhile (s : List Char) :
    specVarTokens (s.dropWhile isVarCont) = specVarTokens s := by
  induction s with
  | nil => rfl
  | cons c t ih =>
    by_cases h : isVarCont c = true
    · rw [List.dropWhile_cons_of_pos h, ih, specVarTokens_cons_of_cont c t h]
    · rw [List.dropWhile_cons_of_neg h]

/-- The regular-expression scan of the source equals the spec-side token
enumeration: leftmost non-overlapping matching finds exactly the tokens
at every position, because no token can start inside another (a dollar
sign is not a name character). -/
theorem scanVars_eq_specVarTokens (s : List Char) :
    scanVars s = specVarTokens s := by
  generalize hn : s.length = n
  induction n using Nat.strong_induction_on generalizing s with
  | _ n ih =>
    match s, hn with
    | [], _ => rw [scanVars_nil]; rfl
    | c :: s', hn =>
      by_cases hc : c = '$'
      · subst hc
        match s', hn with
        | [], _ => rw [scanVars_dollar_nil]; rfl
        | c2 :: rest2, hn =>
          by_cases hst : isVarStart c2 = true
          · rw [scanVars_dollar_start c2 rest2 hst]
            rw [specVarTokens_cons]
            have htok : tokenAt ('$' :: c2 :: rest2) 0 =
                some (c2 :: rest2.takeWhile isVarCont) := by
              simp [tokenAt, hst]
            rw [htok]
            have hlt : (rest2.dropWhile isVarCont).length < n := by
              have hle := List.Sublist.length_le
                (List.dropWhile_sublist (p := isVarCont) (l := rest2))
              simp only [List.length_cons] at hn
              omega
            rw [ih _ hlt _ rfl]
            have h1 : specVarTokens (c2 :: rest2) = specVarTokens rest2 :=
              specVarTokens_cons_of_cont c2 rest2 (isVarCont_of_isVarStart hst)
            rw [h1, ← specVarTokens_dropWhile rest2]
          · rw [scanVars_dollar_not_start c2 rest2 hst]
            rw [specVarTokens_cons]
            have htok : tokenAt ('$' :: c2 :: rest2) 0 = none := by
              simp [tokenAt, hst]
            rw [htok]
            have hlt : (c2 :: rest2).length < n := by
              simp only [List.length_cons] at hn ⊢
              omega
            exact ih _ hlt _ rfl
      · rw [scanVars_cons_ne c s' hc]
        rw [specVarTokens_cons, tokenAt_cons_zero_of_ne c s' hc]
        have hlt : s'.length < n := by
          simp only [List.length_cons] at hn
          omega
        exact ih _ hlt _ rfl

theorem findAllVariableNames_eq_spec (query : String) :
    findAllVariableNames query = specRequiredVariables query := by
  unfold findAllVariableNames specRequiredVariables
  rw [scanVars_eq_specVarTokens]

/-! ## Lemmas about the map model -/

theorem mapGet_setMapValue (m : VarMap V) (k k' : String) (v : V) :
    mapGet (setMapValue m k v) k' = if k' = k then some v else mapGet m k' := by
  induction m with
  | nil =>
    simp only [setMapValue, mapGet, beq_iff_eq]
    by_cases h : k' = k
    · subst h; simp
    · have h2 : ¬ k = k' := fun he => h he.symm
      simp [h, h2]
  | cons p t ih =>
    simp only [setMapValue]
    by_cases hpk : p.1 = k
    · simp only [hpk, beq_self_eq_true, if_true, mapGet, beq_iff_eq]
      by_cases h : k' = k
      · subst h; simp
      · have h2 : ¬ k = k' := fun he => h he.symm
        simp [h, h2, hpk]
    · rw [if_neg (by simp [hpk])]
      simp only [mapGet, beq_iff_eq]
      by_cases hpk' : p.1 = k'
      · have h : ¬ k' = k := fun he => hpk (hpk'.trans he)
        simp [hpk', h]
      · simp [hpk', ih]

theorem mapGet_eq_none_of_not_contains (m : VarMap V) (k : String)
    (h : mapContains m k = false) : mapGet m k = none := by
  unfold mapContains at h
  cases hg : mapGet m k with
  | none => rfl
  | some v => rw [hg] at h; cases h

theorem mapContains_iff_mem_keys (m : VarMap V) (k : String) :
    mapContains m k = true ↔ k ∈ m.map Prod.fst := by
  induction m with
  | nil => simp [mapContains, mapGet]
  | cons p t ih =>
    simp only [mapContains, mapGet, beq_iff_eq, List.map_cons, List.mem_cons]
    by_cases h : p.1 = k
    · simp [h]
    · simp only [h, if_false]
      rw [← ih]
      simp only [mapContains]
      constructor
      · intro hs; exact Or.inr hs
      · intro hs
        cases hs with
        | inl he => exact absurd he.symm h
        | inr hs => exact hs

theorem mapContains_setMapValue (m : VarMap V) (k k' : String) (v : V) :
    mapContains (setMapValue m k v) k' =
      (if k' = k then true else mapContains m k') := by
  unfold mapContains
  rw [mapGet_setMapValue]
  by_cases h : k' = k <;> simp [h]

/-- Lookup after the Remove transfer loop over one survivor's required
names: a name gains (or keeps) the original map's value exactly when the
survivor requires it and the original map has it. -/
theorem mapGet_insertFound (bvars : VarMap V) (ks : List String)
    (m : VarMap V) (k : String) :
    mapGet (insertFound bvars m ks) k =
      if k ∈ ks ∧ mapContains bvars k = true then mapGet bvars k
      else mapGet m k := by
  induction ks generalizing m with
  | nil => simp [insertFound]
  | cons kk rest ih =>
    have hstep : insertFound bvars m (kk :: rest) =
        insertFound bvars
          (match mapGet bvars kk with
            | some v => setMapValue m kk v
            | none => m) rest := by
      simp [insertFound, List.foldl_cons]
    rw [hstep]
    cases hv : mapGet bvars kk with
    | none =>
      rw [ih]
      by_cases hk : k = kk
      · subst hk
        have hcont : mapContains bvars k = false := by
          unfold mapContains; rw [hv]; rfl
        simp [hcont]
      · simp [List.mem_cons, hk]
    | some v =>
      rw [ih, mapGet_setMapValue]
      by_cases hk : k = kk
      · subst hk
        have hcont : mapContains bvars k = true := by
          unfold mapContains; rw [hv]; rfl
        by_cases hrest : k ∈ rest
        · simp [hrest, hcont, hv]
        · simp [hrest, hcont, hv]
      · simp [List.mem_cons, hk]

/-- The append-if accumulation loops of RemoveQuery and RemoveVariable
compute a filter. -/
theorem foldl_append_if_eq_filter {α : Type} (p : α → Bool) (l acc : List α) :
    l.foldl (fun acc x => if p x then acc ++ [x] else acc) acc =
      acc ++ l.filter p := by
  induction l generalizing acc with
  | nil => simp
  | cons x t ih =>
    by_cases h : p x <;> simp [List.foldl_cons, List.filter_cons, h, ih]

/-- The skip-if accumulation loop of Remove computes a filter on the
negated condition. -/
theorem foldl_skip_if_eq_filter {α : Type} (p : α → Bool) (l acc : List α) :
    l.foldl (fun acc x => if p x then acc else acc ++ [x]) acc =
      acc ++ l.filter (fun x => !p x) := by
  induction l generalizing acc with
  | nil => simp
  | cons x t ih =>
    by_cases h : p x <;> simp [List.foldl_cons, List.filter_cons, h, ih]

theorem sliceStringContains_iff (l : List String) (v : String) :
    sliceStringContains l v = true ↔ v ∈ l := by
  unfold sliceStringContains
  rw [List.any_eq_true]
  constructor
  · rintro ⟨s, hs, he⟩
    rw [beq_iff_eq] at he
    exact he ▸ hs
  · intro hv
    exact ⟨v, hv, by simp⟩

theorem sliceStringContains_eq_false (l : List String) (v : String) :
    sliceStringContains l v = false ↔ ¬ v ∈ l := by
  constructor
  · intro h ht
    rw [← sliceStringContains_iff] at ht
    rw [h] at ht
    cases ht
  · intro h
    cases hb : sliceStringContains l v
    · rfl
    · exact absurd ((sliceStringContains_iff l v).mp hb) h

/-- The skip condition of the Remove loop, as the decision of the
spec-level predicate "the fragment's text equals none of the arguments". -/
theorem skip_pred_eq (query : String) (extra : List String) (q : QueryBuilderItem B) :
    (!(q.query == query || sliceStringContains extra q.query)) =
      decide ¬(q.query = query ∨ q.query ∈ extra) := by
  by_cases h : q.query = query ∨ q.query ∈ extra
  · have hor : (q.query == query || sliceStringContains extra q.query) = true := by
      rcases h with h | h
      · simp [h]
      · simp [(sliceStringContains_iff extra q.query).mpr h]
    rw [hor]
    simp [h]
  · push_neg at h
    obtain ⟨h1, h2⟩ := h
    have hor : (q.query == query || sliceStringContains extra q.query) = false := by
      have h3 := (sliceStringContains_eq_false extra q.query).mpr h2
      simp [h1, h3]
    rw [hor]
    simp [h1, h2]

/-- The keep condition of the RemoveQuery loop equals the same decision. -/
theorem keep_pred_eq (query : String) (extra : List String) (q : QueryBuilderItem B) :
    (q.query != query && !sliceStringContains extra q.query) =
      decide ¬(q.query = query ∨ q.query ∈ extra) := by
  rw [← skip_pred_eq]
  simp [bne, Bool.not_or]

/-- The required-variable accumulation loop of Build flattens the
per-fragment lists in order. -/
theorem requiredVarsOf_eq_join (qs : List (QueryBuilderItem B)) :
    requiredVarsOf qs = (qs.map (fun q => q.requiredVars)).flatten := by
  unfold requiredVarsOf
  have h : ∀ acc : List String,
      qs.foldl (fun acc q => acc ++ q.requiredVars) acc =
        acc ++ (qs.map (fun q => q.requiredVars)).flatten := by
    induction qs with
    | nil => intro acc; simp
    | cons q t ih => intro acc; simp [List.foldl_cons, ih, List.append_assoc]
  simpa using h []

/-! ## Lemmas about Build -/

theorem build_eq_of_ne_nil (b : QueryBuilder B V) (h : b.queries ≠ []) :
    b.Build =
      if buildMismatch b then
        .mismatchedVariablesError (requiredVarsOf b.queries) (b.vars.map Prod.fst)
      else
        .ok (b.queries.map (fun q => (q.query, q.binding))) b.vars := by
  unfold QueryBuilder.Build
  rw [if_neg]
  simp [List.length_eq_zero, h]

theorem buildMismatch_eq_true_iff (b : QueryBuilder B V) :
    buildMismatch b = true ↔
      (b.vars.length ≠ (requiredVarsOf b.queries).length ∨
        (requiredVarsOf b.queries ≠ [] ∧
          ∃ x ∈ requiredVarsOf b.queries, mapContains b.vars x = false)) := by
  unfold buildMismatch
  simp [List.any_eq_true, List.length_pos]

theorem build_error_of_mismatch (b : QueryBuilder B V) (h : b.queries ≠ [])
    (hm : buildMismatch b = true) :
    b.Build = .mismatchedVariablesError (requiredVarsOf b.queries)
      (b.vars.map Prod.fst) := by
  rw [build_eq_of_ne_nil b h, if_pos hm]

/-- Build succeeds whenever the declared count equals the total required
count and every required name is a declared key; this is the entire
success condition of the code. -/
theorem build_ok_of (b : QueryBuilder B V) (h : b.queries ≠ [])
    (hlen : b.vars.length = (requiredVarsOf b.queries).length)
    (hmem : ∀ x ∈ requiredVarsOf b.queries, mapContains b.vars x = true) :
    b.Build = .ok (b.queries.map (fun q => (q.query, q.binding))) b.vars := by
  rw [build_eq_of_ne_nil b h, if_neg]
  intro hm
  rw [buildMismatch_eq_true_iff] at hm
  rcases hm with hm | ⟨_, x, hx, hc⟩
  · exact hm hlen
  · rw [hmem x hx] at hc
    cases hc

/-! ## Characterization of the removal operations -/

theorem removeQuery_queries_eq (b : QueryBuilder B V) (query : String)
    (extra : List String) :
    (b.RemoveQuery query extra).queries =
      b.queries.filter
        (fun q => q.query != query && !sliceStringContains extra q.query) := by
  unfold QueryBuilder.RemoveQuery
  rw [foldl_append_if_eq_filter]
  simp

theorem removeVariable_vars_eq (b : QueryBuilder B V) (key : String)
    (extra : List String) :
    (b.RemoveVariable key extra).vars =
      b.vars.filter (fun p => p.1 != key && !sliceStringContains extra p.1) := by
  unfold QueryBuilder.RemoveVariable
  rw [foldl_append_if_eq_filter]
  simp

theorem remove_queries_eq (b : QueryBuilder B V) (query : String)
    (extra : List String) :
    (b.Remove query extra).queries =
      b.queries.filter
        (fun q => !(q.query == query || sliceStringContains extra q.query)) := by
  unfold QueryBuilder.Remove
  rw [foldl_skip_if_eq_filter]
  simp

/-- The variables fold of Remove, over an arbitrary survivor list and
accumulator: a name keeps the original value exactly when some survivor
requires it and the original map has it. -/
theorem remove_vars_fold_mapGet (bvars : VarMap V)
    (S : List (QueryBuilderItem B)) (m : VarMap V) (k : String) :
    mapGet (S.foldl
        (fun m q =>
          if 0 < bvars.length then insertFound bvars m q.requiredVars
          else m) m) k =
      if (∃ q ∈ S, k ∈ q.requiredVars) ∧ mapContains bvars k = true then
        mapGet bvars k
      else mapGet m k := by
  induction S generalizing m with
  | nil => simp
  | cons q t ih =>
    rw [List.foldl_cons]
    by_cases hlen : 0 < bvars.length
    · rw [if_pos hlen, ih, mapGet_insertFound]
      by_cases hcont : mapContains bvars k = true
      · by_cases hq : k ∈ q.requiredVars
        · by_cases ht : ∃ q' ∈ t, k ∈ q'.requiredVars
          · simp [hq, ht, hcont]
          · simp [hq, ht, hcont]
        · simp [hq, hcont]
      · simp [hcont]
    · have hnil : bvars = [] := by
        rw [← List.length_eq_zero]
        omega
      subst hnil
      rw [if_neg hlen, ih]
      have hcont : mapContains ([] : VarMap V) k = false := rfl
      simp [hcont]

/-- Lookup in the variables map produced by Remove: exactly the entries
whose name is required by some surviving fragment survive. -/
theorem remove_vars_mapGet (b : QueryBuilder B V) (query : String)
    (extra : List String) (k : String) :
    mapGet (b.Remove query extra).vars k =
      if ∃ q ∈ (b.Remove query extra).queries, k ∈ q.requiredVars then
        mapGet b.vars k
      else none := by
  have hq := remove_queries_eq b query extra
  have hfold := remove_vars_fold_mapGet b.vars
    (b.queries.filter
      (fun q => !(q.query == query || sliceStringContains extra q.query)))
    [] k
  have hvars : (b.Remove query extra).vars =
      (b.queries.filter
        (fun q => !(q.query == query || sliceStringContains extra q.query))).foldl
        (fun m q =>
          if 0 < b.vars.length then insertFound b.vars m q.requiredVars
          else m) [] := by
    unfold QueryBuilder.Remove
    rw [foldl_skip_if_eq_filter]
    simp
  rw [hvars, hq, hfold]
  by_cases hex : ∃ q ∈ b.queries.filter
      (fun q => !(q.query == query || sliceStringContains extra q.query)),
      k ∈ q.requiredVars
  · by_cases hcont : mapContains b.vars k = true
    · rw [if_pos ⟨hex, hcont⟩, if_pos hex]
    · have hnone : mapGet b.vars k = none :=
        mapGet_eq_none_of_not_contains b.vars k (by
          cases hb : mapContains b.vars k
          · rfl
          · exact absurd hb hcont)
      rw [if_neg (fun h => hcont h.2), if_pos hex, hnone]
      rfl
  · rw [if_neg (fun h => hex h.1), if_neg hex]
    rfl

/-! ## Store-passing model of Go map reference semantics

A Go QueryBuilder value holds its variables map by reference: the struct
is copied on every method call, but the map field is a pointer into the
heap.  `setMapValue` assigns through that pointer (src[key] = value) and
returns the same pointer, so the builder returned by Variable shares its
map with the receiver and with every builder previously derived from it.
To state claims about that sharing, the heap of maps is modelled as a
store (a list of maps indexed by allocation order) and a builder holds an
index into it.  Fragments live in the builder value itself; the slice
aliasing of append is not modelled (it can only widen the divergence). -/

/-- The heap of allocated variables maps. -/
abbrev Store (V : Type) := List (VarMap V)

/-- A builder value under reference semantics: the fragment list by value,
the variables map by reference into the store. -/
structure HQueryBuilder (B : Type) where
  queries : List (QueryBuilderItem B)
  varsRef : Nat
deriving DecidableEq

/-- NewQueryBuilder under reference semantics: allocates a fresh empty
map. -/
def hNewQueryBuilder (s : Store V) : HQueryBuilder B × Store V :=
  (⟨[], s.length⟩, s ++ [[]])

/-- Query under reference semantics: appends a fragment; the returned
builder keeps the receiver's map reference. -/
def hQuery (b : HQueryBuilder B) (query : String) (binding : B) :
    HQueryBuilder B :=
  ⟨b.queries ++ [⟨query, binding, findAllVariableNames query⟩], b.varsRef⟩

/-- Variable under reference semantics: setMapValue writes through the
receiver's map reference and returns the same reference, so the entry
becomes visible to every builder sharing that map. -/
def hVariable (b : HQueryBuilder B) (key : String) (value : V) (s : Store V) :
    HQueryBuilder B × Store V :=
  (⟨b.queries, b.varsRef⟩,
    s.set b.varsRef (setMapValue (s.getD b.varsRef []) key value))

/-- Build under reference semantics: reads the variables map through the
reference at call time and then behaves as the value-level Build. -/
def hBuild (b : HQueryBuilder B) (s : Store V) : BuildResult B V :=
  QueryBuilder.Build ⟨b.queries, s.getD b.varsRef []⟩

/-! ## Concrete builders used as witnesses and counterexamples

Each concrete builder is written with its fields spelled out (so that the
kernel can evaluate it) and accompanied by a lemma showing that it is the
builder the chained API calls construct. -/

/-- One fragment requiring one variable, nothing declared. -/
def builderMissingVar : QueryBuilder Nat Nat :=
  ⟨[⟨"user(id: $id)", 0, ["id"]⟩], []⟩

theorem builderMissingVar_reachable :
    builderMissingVar = NewQueryBuilder.Query "user(id: $id)" 0 := by
  simp only [builderMissingVar, NewQueryBuilder, QueryBuilder.Query,
    findAllVariableNames_eq_spec]
  decide

/-- One fragment requiring "x" twice; keys declared: "x" and "y". -/
def builderSwapExtra : QueryBuilder Nat Nat :=
  ⟨[⟨"q($x, $x)", 0, ["x", "x"]⟩], [("x", 1), ("y", 2)]⟩

theorem builderSwapExtra_reachable :
    builderSwapExtra =
      ((NewQueryBuilder.Query "q($x, $x)" 0).Variable "x" 1).Variable "y" 2 := by
  simp only [builderSwapExtra, NewQueryBuilder, QueryBuilder.Query,
    QueryBuilder.Variable, findAllVariableNames_eq_spec]
  decide

/-- One fragment requiring nothing; one declared variable that no
fragment references. -/
def builderUnusedVar : QueryBuilder Nat Nat :=
  ⟨[⟨"person", 0, []⟩], [("z", 1)]⟩

theorem builderUnusedVar_reachable :
    builderUnusedVar = (NewQueryBuilder.Query "person" 0).Variable "z" 1 := by
  simp only [builderUnusedVar, NewQueryBuilder, QueryBuilder.Query,
    QueryBuilder.Variable, findAllVariableNames_eq_spec]
  decide

/-- A second fragment-plus-unreferenced-variable builder. -/
def builderExtraVar : QueryBuilder Nat Nat :=
  ⟨[⟨"user", 3, []⟩], [("extra", 9)]⟩

theorem builderExtraVar_reachable :
    builderExtraVar = (NewQueryBuilder.Query "user" 3).Variable "extra" 9 := by
  simp only [builderExtraVar, NewQueryBuilder, QueryBuilder.Query,
    QueryBuilder.Variable, findAllVariableNames_eq_spec]
  decide

/-- A consistent one-fragment builder used for the no-op statements. -/
def builderNoopDemo : QueryBuilder Nat Nat :=
  ⟨[⟨"user($id)", 0, ["id"]⟩], [("id", 1)]⟩

theorem builderNoopDemo_reachable :
    builderNoopDemo = (NewQueryBuilder.Query "user($id)" 0).Variable "id" 1 := by
  simp only [builderNoopDemo, NewQueryBuilder, QueryBuilder.Query,
    QueryBuilder.Variable, findAllVariableNames_eq_spec]
  decide

/-- No fragments, one declared variable. -/
def builderVarsOnly : QueryBuilder Nat Nat := ⟨[], [("id", 1)]⟩

theorem builderVarsOnly_reachable :
    builderVarsOnly = NewQueryBuilder.Variable "id" 1 := by
  decide

/-- One fragment requiring "x" twice; exactly one entry per distinct
required name. -/
def builderDupNeed : QueryBuilder Nat Nat :=
  ⟨[⟨"u($x, $x)", 0, ["x", "x"]⟩], [("x", 1)]⟩

theorem builderDupNeed_reachable :
    builderDupNeed = (NewQueryBuilder.Query "u($x, $x)" 0).Variable "x" 1 := by
  simp only [builderDupNeed, NewQueryBuilder, QueryBuilder.Query,
    QueryBuilder.Variable, findAllVariableNames_eq_spec]
  decide

/-- Two fragments with disjoint duplicate-free needs and an exactly
matching variable map. -/
def builderRoundtrip : QueryBuilder Nat Nat :=
  ⟨[⟨"u($id)", 0, ["id"]⟩, ⟨"p($w)", 1, ["w"]⟩], [("id", 3), ("w", 4)]⟩

theorem builderRoundtrip_reachable :
    builderRoundtrip =
      (((NewQueryBuilder.Query "u($id)" 0).Query "p($w)" 1).Variable
        "id" 3).Variable "w" 4 := by
  simp only [builderRoundtrip, NewQueryBuilder, QueryBuilder.Query,
    QueryBuilder.Variable, findAllVariableNames_eq_spec]
  decide

/-- Two fragments requiring the same name, one declared entry for it. -/
def builderDupAcross : QueryBuilder Nat Nat :=
  ⟨[⟨"a($x)", 0, ["x"]⟩, ⟨"b($x)", 1, ["x"]⟩], [("x", 5)]⟩

theorem builderDupAcross_reachable :
    builderDupAcross =
      ((NewQueryBuilder.Query "a($x)" 0).Query "b($x)" 1).Variable "x" 5 := by
  simp only [builderDupAcross, NewQueryBuilder, QueryBuilder.Query,
    QueryBuilder.Variable, findAllVariableNames_eq_spec]
  decide

/-! ## The claims -/

/-- Claim C1: for every builder with at least one fragment, Build fails
with the mismatched-variables error if and only if the number of declared
variables differs from the total number of required-variable occurrences
across all fragments (duplicates counted), or the required-occurrence
list is non-empty and some required name is not a key of the variable
mapping; and on mismatch the error carries the required-name list and the
declared-key list. -/
theorem build_mismatched_iff_count_or_missing (b : QueryBuilder B V)
    (h : b.queries ≠ []) :
    ((∃ req decl, b.Build = .mismatchedVariablesError req decl) ↔
        (b.vars.length ≠ (requiredVarsOf b.queries).length ∨
          (requiredVarsOf b.queries ≠ [] ∧
            ∃ x ∈ requiredVarsOf b.queries, mapContains b.vars x = false))) ∧
    ((b.vars.length ≠ (requiredVarsOf b.queries).length ∨
        (requiredVarsOf b.queries ≠ [] ∧
          ∃ x ∈ requiredVarsOf b.queries, mapContains b.vars x = false)) →
      b.Build = .mismatchedVariablesError (requiredVarsOf b.queries)
        (b.vars.map Prod.fst)) := by
  constructor
  · constructor
    · rintro ⟨req, decl, he⟩
      by_contra hc
      have hm : buildMismatch b = false := by
        cases hb : buildMismatch b
        · rfl
        · exact absurd ((buildMismatch_eq_true_iff b).mp hb) hc
      rw [build_eq_of_ne_nil b h, hm] at he
      simp at he
    · intro hc
      exact ⟨_, _, build_error_of_mismatch b h
        ((buildMismatch_eq_true_iff b).mpr hc)⟩
  · intro hc
    exact build_error_of_mismatch b h ((buildMismatch_eq_true_iff b).mpr hc)

/-- Witness for C1: a builder with one fragment requiring one variable
and nothing declared mismatches (count 0 against 1) and the error carries
both lists. -/
theorem build_mismatched_iff_count_or_missing_witness :
    builderMissingVar.Build = .mismatchedVariablesError
      (requiredVarsOf builderMissingVar.queries)
      (builderMissingVar.vars.map Prod.fst) :=
  (build_mismatched_iff_count_or_missing builderMissingVar (by decide)).2
    (by decide)

/-- Claim C2 counterexample: the required multiset is exactly "x" twice
and the declared keys are exactly "x" and "y" — the swap situation the
claim describes — yet Build succeeds: the membership walk inspects only
required names and both occurrences of "x" are declared keys, so the
mismatch is not detected. -/
theorem build_swap_not_detected :
    requiredVarsOf builderSwapExtra.queries = ["x", "x"] ∧
    builderSwapExtra.vars.map Prod.fst = ["x", "y"] ∧
    builderSwapExtra.vars.length = (requiredVarsOf builderSwapExtra.queries).length ∧
    builderSwapExtra.Build = .ok [("q($x, $x)", 0)] [("x", 1), ("y", 2)] := by
  decide

/-- Claim C2 amended: when the declared count equals the total
required-occurrence count and every required name is a declared key,
Build succeeds — even when the key sets differ by a swap, because the
membership walk only checks required names against keys.  The effective
behaviour is: every required name must be an existing key and the total
counts must match; nothing else is checked. -/
theorem build_ok_of_counts_and_membership (b : QueryBuilder B V)
    (h : b.queries ≠ [])
    (hlen : b.vars.length = (requiredVarsOf b.queries).length)
    (hmem : ∀ x ∈ requiredVarsOf b.queries, mapContains b.vars x = true) :
    b.Build = .ok (b.queries.map (fun q => (q.query, q.binding))) b.vars :=
  build_ok_of b h hlen hmem

/-- Witness for the amended C2: the swap builder satisfies the count and
membership hypotheses and Build succeeds on it. -/
theorem build_ok_of_counts_and_membership_witness :
    builderSwapExtra.Build =
      .ok (builderSwapExtra.queries.map (fun q => (q.query, q.binding)))
        builderSwapExtra.vars :=
  build_ok_of_counts_and_membership builderSwapExtra (by decide) (by decide)
    (by decide)

/-- Claim C5: Build on a builder with zero fragments returns the no-query
error, whatever the variable mapping contains. -/
theorem build_empty_noQuery (b : QueryBuilder B V) (h : b.queries = []) :
    b.Build = .noQueryError := by
  unfold QueryBuilder.Build
  rw [if_pos]
  simp [h]

/-- Witness for C5: a builder holding only a variable and no fragment
fails with the no-query error. -/
theorem build_empty_noQuery_witness : builderVarsOnly.Build = .noQueryError :=
  build_empty_noQuery builderVarsOnly (by decide)

/-- Claim C3 counterexample: removing a text that matches no fragment
deletes nothing from the fragment list, so no variable was required by a
removed fragment and the claim predicts the mapping is kept whole; but
the code rebuilds the mapping from the survivors' required names, so the
entry "z" — required by no fragment at all — is dropped. -/
theorem remove_drops_unreferenced_variable :
    (builderUnusedVar.Remove "bogus" []).queries = builderUnusedVar.queries ∧
    builderUnusedVar.vars = [("z", 1)] ∧
    (builderUnusedVar.Remove "bogus" []).vars = [] := by
  decide

/-- Claim C3 amended: Remove deletes every fragment whose text equals one
of the argument texts (survivors keep their relative order) and replaces
the variable mapping by its restriction to names required by at least one
surviving fragment — every entry whose name is required by no surviving
fragment is removed, including entries that were never required by any
fragment. -/
theorem remove_spec (b : QueryBuilder B V) (query : String)
    (extra : List String) :
    (b.Remove query extra).queries =
      b.queries.filter (fun q => decide ¬(q.query = query ∨ q.query ∈ extra)) ∧
    ∀ k, mapGet (b.Remove query extra).vars k =
      if ∃ q ∈ (b.Remove query extra).queries, k ∈ q.requiredVars then
        mapGet b.vars k
      else none := by
  constructor
  · rw [remove_queries_eq]
    exact List.filter_congr (fun q _ => skip_pred_eq query extra q)
  · intro k
    exact remove_vars_mapGet b query extra k

/-- Claim C4 counterexample: RemoveQuery and RemoveVariable on absent
arguments are no-ops, but Remove on a text matching no fragment is not:
it keeps the fragment list yet empties the variable mapping of the entry
"extra", which no fragment requires. -/
theorem remove_nonmatching_not_noop :
    (builderExtraVar.Remove "nope" []).queries = builderExtraVar.queries ∧
    builderExtraVar.vars = [("extra", 9)] ∧
    (builderExtraVar.Remove "nope" []).vars = [] := by
  decide

/-- Claim C4 amended: removing a non-matching fragment text via
RemoveQuery, or an absent variable name via RemoveVariable, is a no-op
and produces no error; Remove with a non-matching text keeps the fragment
list unchanged but restricts the variable mapping to names required by
some fragment, so on the variables side it is a no-op only when every
declared variable is required by some fragment. -/
theorem removal_noop_spec (b : QueryBuilder B V) (query k : String)
    (extraQ extraK : List String)
    (hq : ∀ it ∈ b.queries, ¬(it.query = query ∨ it.query ∈ extraQ))
    (hk : ∀ p ∈ b.vars, ¬((p : String × V).1 = k ∨ p.1 ∈ extraK)) :
    b.RemoveQuery query extraQ = b ∧
    b.RemoveVariable k extraK = b ∧
    (b.Remove query extraQ).queries = b.queries ∧
    ∀ k', mapGet (b.Remove query extraQ).vars k' =
      if ∃ q ∈ b.queries, k' ∈ q.requiredVars then mapGet b.vars k'
      else none := by
  have hq2 : (b.Remove query extraQ).queries = b.queries := by
    rw [remove_queries_eq]
    apply List.filter_eq_self.mpr
    intro q hq'
    have hthis := hq q hq'
    push_neg at hthis
    obtain ⟨h1, h2⟩ := hthis
    have h3 : (q.query == query) = false := by simp [h1]
    have h4 := (sliceStringContains_eq_false extraQ q.query).mpr h2
    simp [h3, h4]
  refine ⟨?_, ?_, hq2, ?_⟩
  · have h1 : (b.RemoveQuery query extraQ).queries = b.queries := by
      rw [removeQuery_queries_eq]
      apply List.filter_eq_self.mpr
      intro q hq'
      have hthis := hq q hq'
      push_neg at hthis
      obtain ⟨h1, h2⟩ := hthis
      have h4 := (sliceStringContains_eq_false extraQ q.query).mpr h2
      simp [bne_iff_ne, h1, h4]
    have h2 : (b.RemoveQuery query extraQ).vars = b.vars := rfl
    cases b with
    | mk qs vs =>
      cases hx : QueryBuilder.RemoveQuery ⟨qs, vs⟩ query extraQ with
      | mk qs2 vs2 =>
        rw [hx] at h1 h2
        simp only at h1 h2
        rw [h1, h2]
  · have h1 : (b.RemoveVariable k extraK).vars = b.vars := by
      rw [removeVariable_vars_eq]
      apply List.filter_eq_self.mpr
      intro p hp
      have hthis := hk p hp
      push_neg at hthis
      obtain ⟨h1, h2⟩ := hthis
      have h4 := (sliceStringContains_eq_false extraK p.1).mpr h2
      simp [bne_iff_ne, h1, h4]
    have h2 : (b.RemoveVariable k extraK).queries = b.queries := rfl
    cases b with
    | mk qs vs =>
      cases hx : QueryBuilder.RemoveVariable ⟨qs, vs⟩ k extraK with
      | mk qs2 vs2 =>
        rw [hx] at h1 h2
        simp only at h1 h2
        rw [h1, h2]
  · intro k'
    rw [remove_vars_mapGet, hq2]

/-- Witness for the amended C4: on a consistent builder, removing the
absent text "x" and the absent name "zz" behaves as stated. -/
theorem removal_noop_spec_witness :
    builderNoopDemo.RemoveQuery "x" [] = builderNoopDemo ∧
    builderNoopDemo.RemoveVariable "zz" [] = builderNoopDemo ∧
    (builderNoopDemo.Remove "x" []).queries = builderNoopDemo.queries ∧
    ∀ k', mapGet (builderNoopDemo.Remove "x" []).vars k' =
      if ∃ q ∈ builderNoopDemo.queries, k' ∈ q.requiredVars then
        mapGet builderNoopDemo.vars k'
      else none :=
  removal_noop_spec builderNoopDemo "x" "zz" [] [] (by decide) (by decide)

/-- Claim C6: the requiredVariables list computed at insertion time
equals the sequence of names of all tokens of the text matching the
dollar-name pattern (name starting with a letter or underscore and
continuing with letters, digits or underscores), in order of appearance,
duplicate occurrences preserved — specRequiredVariables renders exactly
that description. -/
theorem query_requiredVars_eq_spec (b : QueryBuilder B V) (t : String)
    (binding : B) :
    (b.Query t binding).queries =
      b.queries ++ [⟨t, binding, specRequiredVariables t⟩] := by
  unfold QueryBuilder.Query
  rw [findAllVariableNames_eq_spec]

/-- Claim C7: RemoveQuery leaves the variable mapping exactly as it was —
no entry added, removed or changed, even when a removed fragment's
variables become unreferenced — and deletes precisely the matching-text
fragments, survivors in order. -/
theorem removeQuery_frame (b : QueryBuilder B V) (query : String)
    (extra : List String) :
    (b.RemoveQuery query extra).vars = b.vars ∧
    (b.RemoveQuery query extra).queries =
      b.queries.filter (fun q => decide ¬(q.query = query ∨ q.query ∈ extra)) := by
  refine ⟨rfl, ?_⟩
  rw [removeQuery_queries_eq]
  exact List.filter_congr (fun q _ => keep_pred_eq query extra q)

/-- Claim C8 counterexample: a single fragment (so the disjointness of
the fragments' needs is vacuous) requiring "x" twice, with exactly one
declared entry per required name, satisfies the claim's hypotheses, yet
Build fails: one declared entry cannot equal two required occurrences. -/
theorem build_disjoint_claim_fails :
    requiredVarsOf builderDupNeed.queries = ["x", "x"] ∧
    builderDupNeed.vars = [("x", 1)] ∧
    builderDupNeed.Build = .mismatchedVariablesError ["x", "x"] ["x"] := by
  decide

/-- Claim C8 amended: for every builder with at least one fragment whose
total required-occurrence list is duplicate-free (disjoint needs across
fragments and no duplicate occurrence within a fragment) and whose
declared-key list is a permutation of the required names (exactly one
entry per required name, no extras), Build succeeds, returning the
(text, binding) pairs in insertion order with the original bindings, the
variable mapping unchanged, and no error. -/
theorem build_roundtrip (b : QueryBuilder B V)
    (h : b.queries ≠ [])
    (hnodup : (requiredVarsOf b.queries).Nodup)
    (hkeys : List.Perm (b.vars.map Prod.fst) (requiredVarsOf b.queries)) :
    b.Build = .ok (b.queries.map (fun q => (q.query, q.binding))) b.vars := by
  apply build_ok_of b h
  · have hlen := hkeys.length_eq
    rwa [List.length_map] at hlen
  · intro x hx
    rw [mapContains_iff_mem_keys]
    exact hkeys.mem_iff.mpr hx

/-- Witness for the amended C8: two fragments with disjoint single-name
needs and an exactly matching map build successfully. -/
theorem build_roundtrip_witness :
    builderRoundtrip.Build =
      .ok (builderRoundtrip.queries.map (fun q => (q.query, q.binding)))
        builderRoundtrip.vars :=
  build_roundtrip builderRoundtrip (by decide) (by decide) (by decide)

/-- Claim C10: when some required name occurs more than once across the
fragments (occurrences counted within and across fragments) and the
variable mapping has exactly one entry per distinct required name, Build
fails with the mismatched-variables error even though every required name
is declared: the declared count equals the number of distinct names,
which is strictly below the occurrence count. -/
theorem build_duplicate_required_fails (b : QueryBuilder B V)
    (h : b.queries ≠ [])
    (hdup : ¬ (requiredVarsOf b.queries).Nodup)
    (hkeys : List.Perm (b.vars.map Prod.fst) (requiredVarsOf b.queries).dedup) :
    b.Build = .mismatchedVariablesError (requiredVarsOf b.queries)
      (b.vars.map Prod.fst) := by
  apply build_error_of_mismatch b h
  rw [buildMismatch_eq_true_iff]
  left
  have h1 : b.vars.length = (requiredVarsOf b.queries).dedup.length := by
    have hlen := hkeys.length_eq
    rwa [List.length_map] at hlen
  have h2 : (requiredVarsOf b.queries).dedup.length <
      (requiredVarsOf b.queries).length := by
    have hle := (List.dedup_sublist (requiredVarsOf b.queries)).length_le
    rcases lt_or_eq_of_le hle with hlt | heq
    · exact hlt
    · exfalso
      apply hdup
      rw [← List.dedup_eq_self]
      exact (List.dedup_sublist _).eq_of_length heq
  omega

/-- Witness for C10: two fragments both requiring "x", with the single
declared entry "x": every required name is declared, yet Build fails on
the count. -/
theorem build_duplicate_required_fails_witness :
    builderDupAcross.Build = .mismatchedVariablesError
      (requiredVarsOf builderDupAcross.queries)
      (builderDupAcross.vars.map Prod.fst) :=
  build_duplicate_required_fails builderDupAcross (by decide) (by decide)
    (by decide)

/-! ## The aliasing behaviour of Variable (claim C9)

The scenario below mirrors, under the store-passing model, the Go
program:

  b0 := NewQueryBuilder()          // allocates the map, reference 0
  b1 := b0.Query("person", 7)      // same map reference
  b1.Build()                       // ok: no variables required, none set
  b2 := b1.Variable("id", 1)       // setMapValue writes through ref 0
  b1.Build()                       // now fails: the shared map changed

Every operation returns a new builder struct value, but Variable's
setMapValue mutates the map all these builders share, so the sibling
derivation changes the ancestor's observable state and Build result. -/

/-- The pair produced by NewQueryBuilder on the empty store. -/
def hDemoInit : HQueryBuilder Nat × Store Nat :=
  hNewQueryBuilder (B := Nat) ([] : Store Nat)

/-- The ancestor builder: one fragment requiring no variables, holding
map reference 0. -/
def hAncestor : HQueryBuilder Nat := ⟨[⟨"person", 7, []⟩], 0⟩

theorem hAncestor_reachable : hAncestor = hQuery hDemoInit.1 "person" 7 := by
  simp only [hAncestor, hDemoInit, hNewQueryBuilder, hQuery,
    findAllVariableNames_eq_spec]
  decide

/-- The store as NewQueryBuilder left it: one allocated empty map. -/
def hStore0 : Store Nat := [[]]

theorem hStore0_reachable : hStore0 = hDemoInit.2 := by decide

/-- The store after the sibling's Variable call wrote through the shared
reference. -/
def hStoreMut : Store Nat := (hVariable hAncestor "id" 1 hStore0).2

/-- Claim C9 is violated by the code: deriving a sibling from the
ancestor via Variable returns a builder that shares the ancestor's map
reference and writes the new entry through it, so the ancestor's Build
result changes from success to a mismatched-variables error although the
ancestor itself was never operated on. -/
theorem variable_mutates_shared_map :
    hBuild hAncestor hStore0 = .ok [("person", 7)] [] ∧
    (hVariable hAncestor "id" 1 hStore0).1.varsRef = hAncestor.varsRef ∧
    hBuild hAncestor hStoreMut = .mismatchedVariablesError [] ["id"] := by
  decide

end Graphql
